import Mathlib

/-!
Shallow embedding of the VoiceAgent-Websocket relay (Python, FastAPI) for
verification of its specification.

Conventions of the embedding:
* Upstream clients (`OpenAIWebSocketClient` objects) are identified by `Nat`
  ids; object construction always yields a fresh identity, modelled by the
  `nextId` counter carried in the pool state.
* The Python list `available_clients` is used as a stack (`append`/`pop` at
  the end); we represent it as a Lean `List` whose head is the stack top.
* Network effects are oracles: `conn c` tells whether client `c` currently
  reports `connected`, `recon c` whether an `await client.connect()` call on
  it returns normally (leaving it connected) rather than raising, and
  `fok c` whether a freshly constructed client's `connect()` succeeds.
* Machine floats (`time.time() * 1000` durations) are modelled as `ℚ`.
-/

namespace VoiceAgent

/-! ## Connection pool (`app/client/pool.py`, class `OpenAIClientPool`) -/

/-- State of an `OpenAIClientPool`: configured minimum and maximum,
the `available_clients` list (stack, head = top), the `in_use_clients`
set, and the next fresh object identity. -/
structure PoolState where
  minConnections : Nat
  maxConnections : Nat
  availableClients : List Nat
  inUseClients : Finset Nat
  nextId : Nat

/-- The `while self.available_clients:` loop of `get_client` (pool.py
lines 58-78): pop a client; keep it if `client.connected`; otherwise try
`client.connect()` and keep it when that succeeds; on a raised exception
discard the client and continue with the rest of the stack. -/
def tryAvailable (conn recon : Nat → Bool) : List Nat → Option Nat × List Nat
  | [] => (none, [])
  | c :: rest =>
    if conn c then (some c, rest)
    else if recon c then (some c, rest)
    else tryAvailable conn recon rest

/-- `OpenAIClientPool.get_client` (pool.py lines 50-99).  After the pop
loop, if no usable pooled client was found a fresh client is constructed
only when `len(self.in_use_clients) < self.max_connections`; a fresh
client whose `connect()` fails is discarded and `None` is returned.  Any
returned client is added to `in_use_clients`. -/
def get_client (conn recon : Nat → Bool) (fok : Bool) (s : PoolState) :
    Option Nat × PoolState :=
  match tryAvailable conn recon s.availableClients with
  | (some c, rest) =>
      (some c, { s with availableClients := rest, inUseClients := insert c s.inUseClients })
  | (none, rest) =>
      if s.inUseClients.card < s.maxConnections then
        if fok then
          (some s.nextId,
            { s with availableClients := rest,
                     inUseClients := insert s.nextId s.inUseClients,
                     nextId := s.nextId + 1 })
        else
          (none, { s with availableClients := rest, nextId := s.nextId + 1 })
      else
        (none, { s with availableClients := rest })

/-- `OpenAIClientPool.release_client` (pool.py lines 101-107): only a
client tracked in `in_use_clients` is moved back; its per-session state is
reset (`reset_state`, irrelevant to the id) and it is appended to
`available_clients` unconditionally - the method never consults
`client.connected`. -/
def release_client (c : Nat) (s : PoolState) : PoolState :=
  if c ∈ s.inUseClients then
    { s with inUseClients := s.inUseClients.erase c,
             availableClients := c :: s.availableClients }
  else s

/-- `OpenAIClientPool.initialize` (pool.py lines 17-48): construct
`min_connections` clients with ids `0, ..., min-1`; `ok i` tells whether
client `i` connected successfully and is kept in `available_clients`. -/
def initPool (minC maxC : Nat) (ok : Nat → Bool) : PoolState :=
  { minConnections := minC
    maxConnections := maxC
    availableClients := (List.range minC).filter (fun i => ok i)
    inUseClients := ∅
    nextId := minC }

/-- `OpenAIClientPool.health_check` (pool.py lines 117-152): keep each
available client that is connected or reconnects successfully (one
`connect()` attempt each, dropped on failure); then create
`max(0, min_connections - len(available) - len(in_use))` fresh clients,
keeping those whose `connect()` succeeds. -/
def health_check (conn recon fok : Nat → Bool) (s : PoolState) : PoolState :=
  let healthy := s.availableClients.filter (fun c => conn c || recon c)
  let needed := s.minConnections - healthy.length - s.inUseClients.card
  let created := ((List.range needed).map (fun i => s.nextId + i)).filter (fun c => fok c)
  { s with availableClients := healthy ++ created, nextId := s.nextId + needed }

/-- One acquire (`get_client`) or release (`release_client`) operation,
carrying the network oracles in effect when it runs. -/
inductive PoolOp where
  | acquire (conn recon : Nat → Bool) (fok : Bool)
  | release (c : Nat)

def applyOp : PoolOp → PoolState → PoolState
  | .acquire conn recon fok, s => (get_client conn recon fok s).2
  | .release c, s => release_client c s

def runOps (ops : List PoolOp) (s : PoolState) : PoolState :=
  ops.foldl (fun s op => applyOp op s) s

/-- Pool well-formedness: no duplicate idle entries, the idle and in-use
collections are disjoint, their total size is bounded by the maximum, and
every tracked id precedes the fresh-id counter (object identities are
fresh). -/
def PoolInv (s : PoolState) : Prop :=
  s.availableClients.Nodup ∧
  (∀ c ∈ s.availableClients, c ∉ s.inUseClients) ∧
  s.availableClients.length + s.inUseClients.card ≤ s.maxConnections ∧
  (∀ c ∈ s.availableClients, c < s.nextId) ∧
  (∀ c ∈ s.inUseClients, c < s.nextId)

lemma tryAvailable_none {conn recon : Nat → Bool} :
    ∀ {l : List Nat} {rest : List Nat},
      tryAvailable conn recon l = (none, rest) → rest = [] := by
  intro l
  induction l with
  | nil => intro rest h; simpa [tryAvailable] using congrArg Prod.snd h
  | cons c cs ih =>
      intro rest h
      by_cases hc : conn c
      · simp [tryAvailable, hc] at h
      · by_cases hr : recon c
        · simp [tryAvailable, hc, hr] at h
        · exact ih (by simpa [tryAvailable, hc, hr] using h)

lemma tryAvailable_some {conn recon : Nat → Bool} :
    ∀ {l : List Nat} {c : Nat} {rest : List Nat},
      tryAvailable conn recon l = (some c, rest) →
      c ∈ l ∧ rest.Sublist l ∧ rest.length + 1 ≤ l.length ∧
        (conn c || recon c) = true := by
  intro l
  induction l with
  | nil => intro c rest h; simp [tryAvailable] at h
  | cons a as ih =>
      intro c rest h
      by_cases hc : conn a
      · have h' : ((some a, as) : Option Nat × List Nat) = (some c, rest) := by
          simpa [tryAvailable, hc] using h
        injection h' with h1 h2
        injection h1 with h1
        subst h1; subst h2
        exact ⟨List.mem_cons_self _ _, List.sublist_cons_self _ _, by simp, by simp [hc]⟩
      · by_cases hr : recon a
        · have h' : ((some a, as) : Option Nat × List Nat) = (some c, rest) := by
            simpa [tryAvailable, hc, hr] using h
          injection h' with h1 h2
          injection h1 with h1
          subst h1; subst h2
          exact ⟨List.mem_cons_self _ _, List.sublist_cons_self _ _, by simp, by simp [hr]⟩
        · have h' : tryAvailable conn recon as = (some c, rest) := by
            simpa [tryAvailable, hc, hr] using h
          obtain ⟨hm, hs, hl, hu⟩ := ih h'
          exact ⟨List.mem_cons_of_mem _ hm, hs.cons _,
            le_trans hl (Nat.le_succ _), hu⟩

lemma tryAvailable_some_not_mem {conn recon : Nat → Bool} :
    ∀ {l : List Nat} {c : Nat} {rest : List Nat}, l.Nodup →
      tryAvailable conn recon l = (some c, rest) → c ∉ rest := by
  intro l
  induction l with
  | nil => intro c rest _ h; simp [tryAvailable] at h
  | cons a as ih =>
      intro c rest hnd h
      have hnd' := List.nodup_cons.mp hnd
      by_cases hc : conn a
      · have h' : ((some a, as) : Option Nat × List Nat) = (some c, rest) := by
          simpa [tryAvailable, hc] using h
        injection h' with h1 h2
        injection h1 with h1
        subst h1; subst h2
        exact hnd'.1
      · by_cases hr : recon a
        · have h' : ((some a, as) : Option Nat × List Nat) = (some c, rest) := by
            simpa [tryAvailable, hc, hr] using h
          injection h' with h1 h2
          injection h1 with h1
          subst h1; subst h2
          exact hnd'.1
        · exact ih hnd'.2 (by simpa [tryAvailable, hc, hr] using h)

lemma poolInv_get_client (conn recon : Nat → Bool) (fok : Bool) {s : PoolState}
    (h : PoolInv s) : PoolInv (get_client conn recon fok s).2 := by
  obtain ⟨hnd, hdisj, hcard, hlt, hlt'⟩ := h
  unfold get_client
  rcases htry : tryAvailable conn recon s.availableClients with ⟨c?, rest⟩
  cases c? with
  | some c =>
      obtain ⟨hm, hsub, hlen, _⟩ := tryAvailable_some htry
      have hnotmem : c ∉ rest := tryAvailable_some_not_mem hnd htry
      refine ⟨hsub.nodup hnd, ?_, ?_, ?_, ?_⟩
      · intro x hx
        have hxold : x ∈ s.availableClients := hsub.mem hx
        simp only [Finset.mem_insert]
        push_neg
        exact ⟨fun hxc => hnotmem (hxc ▸ hx), hdisj x hxold⟩
      · calc rest.length + (insert c s.inUseClients).card
            ≤ rest.length + (s.inUseClients.card + 1) :=
              Nat.add_le_add_left (Finset.card_insert_le _ _) _
          _ = rest.length + 1 + s.inUseClients.card := by omega
          _ ≤ s.availableClients.length + s.inUseClients.card :=
              Nat.add_le_add_right hlen _
          _ ≤ s.maxConnections := hcard
      · intro x hx; exact hlt x (hsub.mem hx)
      · intro x hx
        rcases Finset.mem_insert.mp hx with hxc | hxin
        · exact hxc ▸ hlt c hm
        · exact hlt' x hxin
  | none =>
      have hrest : rest = [] := tryAvailable_none htry
      subst hrest
      by_cases hlt2 : s.inUseClients.card < s.maxConnections
      · cases fok with
        | true =>
          simp only [hlt2, if_true]
          refine ⟨List.nodup_nil, by simp, ?_, by simp, ?_⟩
          · simp only [List.length_nil, Nat.zero_add]
            calc (insert s.nextId s.inUseClients).card
                ≤ s.inUseClients.card + 1 := Finset.card_insert_le _ _
              _ ≤ s.maxConnections := hlt2
          · intro x hx
            rcases Finset.mem_insert.mp hx with hxc | hxin
            · exact hxc ▸ Nat.lt_succ_self _
            · exact lt_trans (hlt' x hxin) (Nat.lt_succ_self _)
        | false =>
          simp only [hlt2, if_true]
          refine ⟨List.nodup_nil, by simp,
            by simpa using le_trans (Nat.le_add_left _ _) hcard, by simp, ?_⟩
          intro x hx
          exact lt_trans (hlt' x hx) (Nat.lt_succ_self _)
      · simp only [hlt2, if_false]
        exact ⟨List.nodup_nil, by simp,
          by simpa using le_trans (Nat.le_add_left _ _) hcard, by simp, hlt'⟩

lemma poolInv_release_client (c : Nat) {s : PoolState}
    (h : PoolInv s) : PoolInv (release_client c s) := by
  obtain ⟨hnd, hdisj, hcard, hlt, hlt'⟩ := h
  unfold release_client
  by_cases hc : c ∈ s.inUseClients
  · simp only [hc, if_true]
    have hcav : c ∉ s.availableClients := fun hmem => hdisj c hmem hc
    refine ⟨List.nodup_cons.mpr ⟨hcav, hnd⟩, ?_, ?_, ?_, ?_⟩
    · intro x hx
      rcases List.mem_cons.mp hx with hxc | hxav
      · subst hxc; exact Finset.not_mem_erase _ _
      · exact fun hxe => hdisj x hxav (Finset.mem_of_mem_erase hxe)
    · have hcardc : (s.inUseClients.erase c).card = s.inUseClients.card - 1 :=
        Finset.card_erase_of_mem hc
      have hpos : 1 ≤ s.inUseClients.card := Finset.card_pos.mpr ⟨c, hc⟩
      simp only [List.length_cons, hcardc]
      omega
    · intro x hx
      rcases List.mem_cons.mp hx with hxc | hxav
      · exact hxc ▸ hlt' c hc
      · exact hlt x hxav
    · intro x hx; exact hlt' x (Finset.mem_of_mem_erase hx)
  · simp only [hc, if_false]
    exact ⟨hnd, hdisj, hcard, hlt, hlt'⟩

lemma poolInv_initPool (minC maxC : Nat) (ok : Nat → Bool) (h : minC ≤ maxC) :
    PoolInv (initPool minC maxC ok) := by
  refine ⟨(List.nodup_range minC).filter _, by simp [initPool], ?_, ?_, by simp [initPool]⟩
  · simp only [initPool, Finset.card_empty, Nat.add_zero]
    calc ((List.range minC).filter (fun i => ok i)).length
        ≤ (List.range minC).length := List.length_filter_le _ _
      _ = minC := List.length_range _
      _ ≤ maxC := h
  · intro c hc
    simp only [initPool, List.mem_filter, List.mem_range] at hc
    simpa [initPool] using hc.1

lemma poolInv_applyOp (op : PoolOp) {s : PoolState} (h : PoolInv s) :
    PoolInv (applyOp op s) := by
  cases op with
  | acquire conn recon fok => exact poolInv_get_client conn recon fok h
  | release c => exact poolInv_release_client c h

lemma poolInv_runOps (ops : List PoolOp) {s : PoolState} (h : PoolInv s) :
    PoolInv (runOps ops s) := by
  induction ops generalizing s with
  | nil => exact h
  | cons op rest ih => exact ih (poolInv_applyOp op h)

lemma maxConnections_get_client (conn recon : Nat → Bool) (fok : Bool) (s : PoolState) :
    (get_client conn recon fok s).2.maxConnections = s.maxConnections := by
  unfold get_client
  split
  · rfl
  · split
    · split
      · rfl
      · rfl
    · rfl

lemma maxConnections_applyOp (op : PoolOp) (s : PoolState) :
    (applyOp op s).maxConnections = s.maxConnections := by
  cases op with
  | acquire conn recon fok => exact maxConnections_get_client conn recon fok s
  | release c =>
      unfold applyOp release_client
      by_cases hc : c ∈ s.inUseClients <;> simp [hc]

lemma maxConnections_runOps (ops : List PoolOp) (s : PoolState) :
    (runOps ops s).maxConnections = s.maxConnections := by
  induction ops generalizing s with
  | nil => rfl
  | cons op rest ih =>
      calc (runOps (op :: rest) s).maxConnections
          = (runOps rest (applyOp op s)).maxConnections := rfl
        _ = (applyOp op s).maxConnections := ih _
        _ = s.maxConnections := maxConnections_applyOp op s

/-! ## Stream state and message handler
(`app/handlers/stream_state.py`, `app/handlers/openai_handler.py`) -/

/-- The `StreamState` dataclass (stream_state.py lines 7-28). -/
structure StreamState where
  latestTimestamp : Int
  lastAssistantItem : Option String
  responseStartTime : Option Int
  isUserSpeaking : Bool
  isAssistantSpeaking : Bool
  mediaCount : Nat
deriving DecidableEq

/-- The mutable attributes of `OpenAIMessageHandler` relevant to turn
tracking: the shared `StreamState`, `audio_duration_ms` and
`audio_start_time` (wall-clock floats, modelled as `ℚ`), and the
`_audio_chunk_count` attribute, whose absence (before `delattr` /
first audio chunk) is `none`. -/
structure HandlerState where
  state : StreamState
  audioDurationMs : ℚ
  audioStartTime : Option ℚ
  audioChunkCount : Option Nat
deriving DecidableEq

/-- Every message the handler can send upstream to OpenAI that the claims
mention: `conversation.item.truncate`, `conversation.item.create` with a
`function_call_output` item, and `response.create`. -/
inductive ToolOutcome where
  | success (result : String)
  | error (msg : String)
deriving DecidableEq

inductive UpstreamMsg where
  | truncate (itemId : String) (contentIndex : Nat) (audioEndMs : Int)
  | itemCreate (callId : String) (output : ToolOutcome)
  | responseCreate
deriving DecidableEq

/-- Messages sent down to the browser client that the claims mention. -/
inductive DownstreamMsg where
  | errorEvent (message : String)
deriving DecidableEq

/-- `OpenAIMessageHandler._reset_audio_tracking` (openai_handler.py lines
220-228). -/
def reset_audio_tracking (h : HandlerState) : HandlerState :=
  { state := { h.state with lastAssistantItem := none,
                            responseStartTime := none,
                            isAssistantSpeaking := false }
    audioDurationMs := 0
    audioStartTime := none
    audioChunkCount := none }

/-- `OpenAIMessageHandler._handle_interruption` (openai_handler.py lines
177-210).  With no recorded assistant item, or with a tracked duration
below 400 ms, the method returns early without sending anything and
without resetting anything.  Otherwise it sends exactly one
`conversation.item.truncate` with `content_index` 0 and
`audio_end_ms = int(max(100, duration * 0.9))` (the Python `int()`
truncation equals `⌊·⌋` here because the argument is at least 100) and
then resets the audio tracking state. -/
def handle_interruption (h : HandlerState) : HandlerState × List UpstreamMsg :=
  match h.state.lastAssistantItem with
  | none => (h, [])
  | some item =>
    if h.audioDurationMs < 400 then (h, [])
    else
      (reset_audio_tracking h,
        [UpstreamMsg.truncate item 0 (Int.floor (max 100 (h.audioDurationMs * (9 / 10))))])

/-- `OpenAIMessageHandler._handle_speech_started` (openai_handler.py lines
152-166): run the interruption logic when the assistant is speaking, then
mark the user as speaking and stamp the current time `now`. -/
def handle_speech_started (now : Int) (h : HandlerState) :
    HandlerState × List UpstreamMsg :=
  let p := if h.state.isAssistantSpeaking then handle_interruption h else (h, [])
  ({ p.1 with state := { p.1.state with isUserSpeaking := true, latestTimestamp := now } },
    p.2)

/-- Substring containment on character lists, modelling the Python `in`
operator on strings: `startsWithChars p s` iff `p` is an initial segment
of `s`. -/
def startsWithChars : List Char → List Char → Bool
  | [], _ => true
  | _ :: _, [] => false
  | p :: ps, c :: cs => p == c && startsWithChars ps cs

def containsSub (pat : List Char) : List Char → Bool
  | [] => pat.isEmpty
  | c :: cs => startsWithChars pat (c :: cs) || containsSub pat cs

/-- The benign upstream error substring checked by `_handle_error`
(openai_handler.py line 295). -/
def benignPat : List Char := ("already shorter than").data

/-- `OpenAIMessageHandler._handle_error` (openai_handler.py lines
288-305).  `errMsg?` is `response.get('error', {}).get('message')`; a
missing message defaults to `"Unknown error"`.  A message containing the
benign substring only resets the turn-tracking state; any other message
is forwarded to the client as an `error` event.  The method never raises
(it is total here), so the session continues in either case. -/
def handle_error (h : HandlerState) (errMsg? : Option String) :
    HandlerState × List DownstreamMsg :=
  let errorMsg := errMsg?.getD "Unknown error"
  if containsSub benignPat errorMsg.data then
    (reset_audio_tracking h, [])
  else
    (h, [DownstreamMsg.errorEvent errorMsg])

/-! ## Tool execution (`app/tools/iot_tools.py`,
`app/handlers/tools/tool_response.py`, `_handle_function_call`) -/

/-- `execute_function` (iot_tools.py lines 323-337): look the name up in
`FUNCTION_MAP` (modelled as `fmap`); a mapped callable is invoked (it may
raise, modelled by `Except.error` carrying `str(exception)`); an unmapped
name returns the not-found message as a normal value.  (The source string
quotes the name; the quotes are elided here.) -/
def execute_function (fmap : String → Option (Unit → Except String String))
    (fname : String) : Except String String :=
  match fmap fname with
  | some f => f ()
  | none => Except.ok ("Function " ++ fname ++ " not found")

/-- `send_tool_result` (tool_response.py lines 8-31): a
`conversation.item.create` carrying a `function_call_output` item with
the given `call_id` and serialized result, followed by a
`response.create`. -/
def send_tool_result (callId : String) (result : ToolOutcome) : List UpstreamMsg :=
  [UpstreamMsg.itemCreate callId result, UpstreamMsg.responseCreate]

/-- `OpenAIMessageHandler._handle_function_call` (openai_handler.py lines
243-286): with both `call_id` and `name` present, execute the function;
a normal return becomes a `{"status": "success", "result": ...}` payload,
a raised exception a `{"status": "error", "error": str(e)}` payload, and
either is sent via `send_tool_result`.  With either field missing the
handler only logs: nothing is executed or sent. -/
def handle_function_call (fmap : String → Option (Unit → Except String String))
    (fname? callId? : Option String) : List UpstreamMsg :=
  match callId?, fname? with
  | some callId, some fname =>
      let result := match execute_function fmap fname with
        | Except.ok r => ToolOutcome.success r
        | Except.error e => ToolOutcome.error e
      send_tool_result callId result
  | _, _ => []

/-! ## Upstream receive (`app/client/client.py`,
`OpenAIWebSocketClient.receive_message`, lines 222-274) -/

/-- What `self.websocket.recv()` can produce: a text frame, a binary
frame, or a raised `ConnectionClosed`. -/
inductive WireEvent where
  | text (s : String)
  | binary (len : Nat)
  | closed

/-- The dictionaries `receive_message` returns: the parsed message, the
parse-error sentinel `{"error": "JSON parse error", "message": message}`
(an error marker plus the raw text), or the binary-info record. -/
inductive RecvRecord (α : Type) where
  | parsed (j : α)
  | parseError (err raw : String)
  | binaryInfo (len : Nat)
deriving DecidableEq

/-- Exceptions `receive_message` raises to its caller. -/
inductive RecvError where
  | noWebsocket
  | connectionClosed
deriving DecidableEq

/-- `OpenAIWebSocketClient.receive_message`: with no websocket it raises
`RuntimeError`; a raised `ConnectionClosed` propagates; a text frame is
parsed by `json.loads` (modelled by the `parse` oracle), a
`JSONDecodeError` being caught and turned into the sentinel record; a
binary frame yields the binary-info record. -/
def receive_message {α : Type} (hasWebsocket : Bool) (parse : String → Option α) :
    WireEvent → Except RecvError (RecvRecord α) := fun ev =>
  if hasWebsocket then
    match ev with
    | WireEvent.text s =>
        match parse s with
        | some j => Except.ok (RecvRecord.parsed j)
        | none => Except.ok (RecvRecord.parseError "JSON parse error" s)
    | WireEvent.binary n => Except.ok (RecvRecord.binaryInfo n)
    | WireEvent.closed => Except.error RecvError.connectionClosed
  else Except.error RecvError.noWebsocket

/-! ## Concrete states used by witnesses and counterexamples -/

/-- A handler state mid-turn: assistant speaking, item recorded, 1000 ms
of audio tracked. -/
def hstLong : HandlerState :=
  ⟨⟨0, some "item-1", some 10, false, true, 3⟩, 1000, some 0, some 7⟩

/-- Same turn but only 150 ms of audio tracked. -/
def hstShort : HandlerState :=
  ⟨⟨0, some "item-1", some 10, false, true, 3⟩, 150, some 0, some 7⟩

/-- A pool at capacity: maximum 2, both ids 0 and 1 in use, one stale id 5
still idle. -/
def poolCap : PoolState := ⟨2, 2, [5], {0, 1}, 6⟩

/-- A pool with an empty idle list and two in-use connections. -/
def poolBusy : PoolState := ⟨2, 5, [], {0, 1}, 2⟩

/-- A pool with a single in-use connection. -/
def poolOne : PoolState := ⟨2, 5, [], {0}, 1⟩

/-- The tool table of the C8 scenario: `turn_red_light_on` is mapped to a
callable that raises. -/
def toolMapBoom : String → Option (Unit → Except String String) :=
  fun n => if n = "turn_red_light_on" then some (fun _ => Except.error "boom") else none

/-! ## Claim theorems -/

/-- C1: with an assistant item recorded and the assistant speaking, a
speech-started event with tracked duration `D ≥ 400` sends exactly one
`conversation.item.truncate` upstream, carrying the recorded item id,
content index 0 and `audio_end_ms = ⌊max 100 (D * 0.9)⌋`; with `D < 400`
nothing is sent. -/
theorem interruption_truncate_spec (now : Int) (h : HandlerState) (item : String)
    (hspk : h.state.isAssistantSpeaking = true)
    (hitem : h.state.lastAssistantItem = some item) :
    (400 ≤ h.audioDurationMs →
      (handle_speech_started now h).2 =
        [UpstreamMsg.truncate item 0
          (Int.floor (max 100 (h.audioDurationMs * (9 / 10))))]) ∧
    (h.audioDurationMs < 400 → (handle_speech_started now h).2 = []) := by
  constructor
  · intro hd
    have hnotlt : ¬ h.audioDurationMs < 400 := not_lt.mpr hd
    simp [handle_speech_started, handle_interruption, hspk, hitem, hnotlt]
  · intro hd
    simp [handle_speech_started, handle_interruption, hspk, hitem, hd]

/-- C1 witness: a 1000 ms turn interrupted yields exactly
`truncate "item-1" 0 900`. -/
theorem interruption_truncate_spec_witness :
    (handle_speech_started 5 hstLong).2 = [UpstreamMsg.truncate "item-1" 0 900] := by
  have h := (interruption_truncate_spec 5 hstLong "item-1" rfl rfl).1
    (by norm_num [hstLong])
  rw [h]
  norm_num [hstLong, max_def]

/-- C2 counterexample: a 150 ms turn interrupted sends no truncate, but
the turn-tracking state is NOT reset: the assistant item id, the
assistant-speaking flag, the tracked duration and the chunk counter all
survive, because `_handle_interruption` returns before
`_reset_audio_tracking` when the duration is below 400 ms. -/
theorem short_interruption_not_reset_cex :
    (handle_speech_started 99 hstShort).2 = [] ∧
    (handle_speech_started 99 hstShort).1.state.lastAssistantItem = some "item-1" ∧
    (handle_speech_started 99 hstShort).1.state.isAssistantSpeaking = true ∧
    (handle_speech_started 99 hstShort).1.audioDurationMs = 150 ∧
    (handle_speech_started 99 hstShort).1.audioChunkCount = some 7 := by
  refine ⟨?_, ?_, ?_, ?_, ?_⟩ <;>
    simp [handle_speech_started, handle_interruption, hstShort,
      show (150 : ℚ) < 400 by norm_num]

/-- C2 amended: when the measured duration is below 400 ms, no truncate is
sent and the turn-tracking state is left unchanged (only the
user-speaking flag and the latest timestamp are updated); it is not
reset. -/
theorem short_interruption_state_unchanged (now : Int) (h : HandlerState)
    (item : String) (hspk : h.state.isAssistantSpeaking = true)
    (hitem : h.state.lastAssistantItem = some item)
    (hd : h.audioDurationMs < 400) :
    (handle_speech_started now h).2 = [] ∧
    (handle_speech_started now h).1 =
      { h with state := { h.state with isUserSpeaking := true, latestTimestamp := now } } := by
  simp [handle_speech_started, handle_interruption, hspk, hitem, hd]

/-- C2 amended, witness at the 150 ms state. -/
theorem short_interruption_state_unchanged_witness :
    (handle_speech_started 99 hstShort).2 = [] ∧
    (handle_speech_started 99 hstShort).1 =
      { hstShort with state :=
        { hstShort.state with isUserSpeaking := true, latestTimestamp := 99 } } :=
  short_interruption_state_unchanged 99 hstShort "item-1" rfl rfl
    (by norm_num [hstShort])

/-- C3: starting from an initialized pool with `minimum ≤ maximum`, after
any sequence of acquires and releases the idle and in-use counts total at
most the maximum and no connection is tracked in both collections. -/
theorem pool_acquire_release_invariant (minC maxC : Nat) (ok : Nat → Bool)
    (ops : List PoolOp) (h : minC ≤ maxC) :
    (runOps ops (initPool minC maxC ok)).availableClients.length +
        (runOps ops (initPool minC maxC ok)).inUseClients.card ≤ maxC ∧
    ∀ c ∈ (runOps ops (initPool minC maxC ok)).availableClients,
      c ∉ (runOps ops (initPool minC maxC ok)).inUseClients := by
  obtain ⟨_, hdisj, hcard, _, _⟩ := poolInv_runOps ops (poolInv_initPool minC maxC ok h)
  refine ⟨?_, hdisj⟩
  have hmax := maxConnections_runOps ops (initPool minC maxC ok)
  rw [hmax] at hcard
  exact hcard

/-- C3 witness: minimum 1, maximum 2, one acquire then one release. -/
theorem pool_acquire_release_invariant_witness :
    (runOps [PoolOp.acquire (fun _ => true) (fun _ => false) true, PoolOp.release 0]
        (initPool 1 2 (fun _ => true))).availableClients.length +
      (runOps [PoolOp.acquire (fun _ => true) (fun _ => false) true, PoolOp.release 0]
        (initPool 1 2 (fun _ => true))).inUseClients.card ≤ 2 :=
  (pool_acquire_release_invariant 1 2 (fun _ => true)
    [PoolOp.acquire (fun _ => true) (fun _ => false) true, PoolOp.release 0]
    (by decide)).1

/-- C4: the cleanup in `websocket_endpoint` (router.py line 168) calls
`release_client` on a client constructed directly at router.py line 32,
which was never acquired through `get_client` and so is not in
`in_use_clients`; the membership guard makes the release a no-op, so the
pool does NOT track the connection as available afterwards, contradicting
the claim (and the code's own log line "client released to pool"). -/
theorem release_unpooled_client_noop (c : Nat) (s : PoolState)
    (h : c ∉ s.inUseClients) : release_client c s = s := by
  simp [release_client, h]

/-- C4 witness: releasing the never-acquired id 7 leaves the pool
untouched. -/
theorem release_unpooled_client_noop_witness :
    release_client 7 poolOne = poolOne :=
  release_unpooled_client_noop 7 poolOne (by decide)

lemma tryAvailable_all_dead {conn recon : Nat → Bool} :
    ∀ {l : List Nat}, (∀ c ∈ l, conn c = false ∧ recon c = false) →
      tryAvailable conn recon l = (none, []) := by
  intro l
  induction l with
  | nil => intro _; rfl
  | cons a as ih =>
      intro hall
      have ha := hall a (List.mem_cons_self _ _)
      have hstep : tryAvailable conn recon (a :: as) = tryAvailable conn recon as := by
        simp [tryAvailable, ha.1, ha.2]
      rw [hstep]
      exact ih (fun c hc => hall c (List.mem_cons_of_mem _ hc))

/-- C5: at capacity (`in-use count = maximum`) with no idle connection
connected or reconnectable, `get_client` returns no client, creates no
connection (in-use set and fresh-id counter unchanged) and does not
block (it is a total function here). -/
theorem get_client_at_capacity_unavailable (conn recon : Nat → Bool) (fok : Bool)
    (s : PoolState) (hcap : s.inUseClients.card = s.maxConnections)
    (hdead : ∀ c ∈ s.availableClients, conn c = false ∧ recon c = false) :
    (get_client conn recon fok s).1 = none ∧
    (get_client conn recon fok s).2.inUseClients = s.inUseClients ∧
    (get_client conn recon fok s).2.nextId = s.nextId := by
  have htry := tryAvailable_all_dead hdead
  have hnot : ¬ s.inUseClients.card < s.maxConnections := by omega
  unfold get_client
  rw [htry]
  simp [hnot]

/-- C5 witness: a min-2/max-2 pool with both connections in use and a
dead idle entry returns no client. -/
theorem get_client_at_capacity_unavailable_witness :
    (get_client (fun _ => false) (fun _ => false) true poolCap).1 = none ∧
    (get_client (fun _ => false) (fun _ => false) true poolCap).2.inUseClients =
      poolCap.inUseClients ∧
    (get_client (fun _ => false) (fun _ => false) true poolCap).2.nextId =
      poolCap.nextId :=
  get_client_at_capacity_unavailable (fun _ => false) (fun _ => false) true poolCap
    (by decide) (by decide)

/-- C6 counterexample: a pool with minimum 2, no idle connections and two
in-use connections: `health_check` computes
`needed = max(0, 2 - 0 - 2) = 0` and creates nothing, even though every
connection attempt would succeed, leaving 0 idle connections - fewer than
`min(minimum, reachable) = 2` - because in-use connections are counted
against the minimum. -/
theorem health_check_idle_shortfall_cex :
    (health_check (fun _ => true) (fun _ => true) (fun _ => true)
        poolBusy).availableClients = [] ∧
    poolBusy.minConnections = 2 ∧ poolBusy.inUseClients.card = 2 := by
  refine ⟨?_, rfl, by decide⟩
  simp [health_check, poolBusy]

/-- C6 amended: assuming new connection attempts succeed, after
`health_check` every idle connection is live (kept because connected or
revived by its one reconnect attempt, or freshly created), the number of
fresh connections created is exactly the shortfall
`max(0, minimum - kept - in-use)`, and idle plus in-use together reach at
least the minimum - but the idle count alone can stay below the minimum
when connections are in use. -/
theorem health_check_live_and_refill (conn recon fok : Nat → Bool) (s : PoolState)
    (hfok : fok = fun _ => true) :
    (∀ c ∈ (health_check conn recon fok s).availableClients,
        (conn c || recon c) = true ∨ s.nextId ≤ c) ∧
    (health_check conn recon fok s).availableClients.length =
      (s.availableClients.filter (fun c => conn c || recon c)).length +
        (s.minConnections -
          (s.availableClients.filter (fun c => conn c || recon c)).length -
          s.inUseClients.card) ∧
    s.minConnections ≤
      (health_check conn recon fok s).availableClients.length +
        s.inUseClients.card := by
  subst hfok
  refine ⟨?_, ?_, ?_⟩
  · intro c hc
    simp only [health_check, List.mem_append, List.mem_filter, List.mem_map,
      List.mem_range] at hc
    rcases hc with ⟨_, hprop⟩ | ⟨⟨i, _, rfl⟩, _⟩
    · exact Or.inl hprop
    · exact Or.inr (Nat.le_add_right _ _)
  · simp [health_check]
  · simp only [health_check, List.length_append]
    have hlen : (((List.range (s.minConnections -
          (s.availableClients.filter (fun c => conn c || recon c)).length -
          s.inUseClients.card)).map (fun i => s.nextId + i)).filter
            (fun _ => true)).length =
        s.minConnections -
          (s.availableClients.filter (fun c => conn c || recon c)).length -
          s.inUseClients.card := by
      simp
    rw [hlen]
    omega

/-- C6 amended, witness at the busy pool: idle plus in-use reaches the
minimum. -/
theorem health_check_live_and_refill_witness :
    poolBusy.minConnections ≤
      (health_check (fun _ => true) (fun _ => true) (fun _ => true)
          poolBusy).availableClients.length + poolBusy.inUseClients.card :=
  (health_check_live_and_refill (fun _ => true) (fun _ => true) (fun _ => true)
    poolBusy rfl).2.2

/-- C7: a text frame that `json.loads` rejects makes `receive_message`
return the sentinel record carrying the error marker and the raw message,
as a normal value rather than a raised exception. -/
theorem receive_message_parse_error_sentinel {α : Type}
    (parse : String → Option α) (s : String) (h : parse s = none) :
    receive_message true parse (WireEvent.text s) =
      Except.ok (RecvRecord.parseError "JSON parse error" s) := by
  simp [receive_message, h]

/-- C7 witness: an unparseable frame yields the sentinel. -/
theorem receive_message_parse_error_sentinel_witness :
    receive_message true (fun _ => (none : Option Unit))
        (WireEvent.text "not json") =
      Except.ok (RecvRecord.parseError "JSON parse error" "not json") :=
  receive_message_parse_error_sentinel (fun _ => none) "not json" rfl

/-- C8: with a mapped function name and a call id both present, the tool
callable is executed and exactly a `conversation.item.create` carrying a
`function_call_output` with that call id - a success payload on normal
return, an error payload carrying the exception text when the callable
raised - followed by a `response.create` is sent upstream; with either
field missing nothing is executed or sent. -/
theorem handle_function_call_spec
    (fmap : String → Option (Unit → Except String String))
    (fname callId : String) (f : Unit → Except String String)
    (hf : fmap fname = some f) :
    (∀ r, f () = Except.ok r →
      handle_function_call fmap (some fname) (some callId) =
        [UpstreamMsg.itemCreate callId (ToolOutcome.success r),
          UpstreamMsg.responseCreate]) ∧
    (∀ e, f () = Except.error e →
      handle_function_call fmap (some fname) (some callId) =
        [UpstreamMsg.itemCreate callId (ToolOutcome.error e),
          UpstreamMsg.responseCreate]) ∧
    (∀ fn?, handle_function_call fmap fn? none = []) ∧
    handle_function_call fmap none (some callId) = [] := by
  refine ⟨?_, ?_, ?_, rfl⟩
  · intro r hr
    simp [handle_function_call, execute_function, send_tool_result, hf, hr]
  · intro e he
    simp [handle_function_call, execute_function, send_tool_result, hf, he]
  · intro fn?
    cases fn? <;> rfl

/-- C8 witness, the spec scenario: `turn_red_light_on` with call id
`abc` whose callable raises `boom` produces the error-status
function-result message then `response.create`. -/
theorem handle_function_call_spec_witness :
    handle_function_call toolMapBoom (some "turn_red_light_on") (some "abc") =
      [UpstreamMsg.itemCreate "abc" (ToolOutcome.error "boom"),
        UpstreamMsg.responseCreate] :=
  (handle_function_call_spec toolMapBoom "turn_red_light_on" "abc"
    (fun _ => Except.error "boom") (by simp [toolMapBoom])).2.1 "boom" rfl

/-- C9: an error event whose message contains the benign
"already shorter than" substring silently resets the turn-tracking state
and forwards nothing to the client; any other message is forwarded as an
`error` event with the state untouched, and the handler returns normally
either way. -/
theorem handle_error_spec (h : HandlerState) (errMsg? : Option String) :
    (containsSub benignPat (errMsg?.getD "Unknown error").data = true →
      handle_error h errMsg? = (reset_audio_tracking h, []) ∧
      (handle_error h errMsg?).1.state.lastAssistantItem = none ∧
      (handle_error h errMsg?).1.state.isAssistantSpeaking = false ∧
      (handle_error h errMsg?).1.audioDurationMs = 0) ∧
    (containsSub benignPat (errMsg?.getD "Unknown error").data = false →
      handle_error h errMsg? =
        (h, [DownstreamMsg.errorEvent (errMsg?.getD "Unknown error")])) := by
  constructor
  · intro hb
    have heq : handle_error h errMsg? = (reset_audio_tracking h, []) := by
      simp [handle_error, hb]
    exact ⟨heq, by simp [heq, reset_audio_tracking],
      by simp [heq, reset_audio_tracking], by simp [heq, reset_audio_tracking]⟩
  · intro hb
    simp [handle_error, hb]

/-- C9 witness: the benign upstream race message resets the mid-turn
state and sends nothing down. -/
theorem handle_error_spec_witness :
    handle_error hstLong (some "Audio content is already shorter than 900ms") =
        (reset_audio_tracking hstLong, []) ∧
      (handle_error hstLong
          (some "Audio content is already shorter than 900ms")).1.state.lastAssistantItem = none ∧
      (handle_error hstLong
          (some "Audio content is already shorter than 900ms")).1.state.isAssistantSpeaking = false ∧
      (handle_error hstLong
          (some "Audio content is already shorter than 900ms")).1.audioDurationMs = 0 :=
  (handle_error_spec hstLong
    (some "Audio content is already shorter than 900ms")).1 (by decide)

/-- C10 counterexample: `release_client` takes no account of liveness at
all - the source (pool.py lines 101-107) never consults
`client.connected` - so an in-use connection that is dead at release time
is still appended to `available_clients`: here id 0, in use, lands back
in the idle list. -/
theorem release_dead_client_returned_cex :
    0 ∈ poolOne.inUseClients ∧
    0 ∈ (release_client 0 poolOne).availableClients := by
  refine ⟨by decide, ?_⟩
  simp [release_client, poolOne]

/-- C10 amended: releasing a tracked in-use connection always moves it
back to the idle list, connected or not; dead idle connections are
instead filtered out later, by `get_client` or `health_check`. -/
theorem release_client_ignores_liveness (c : Nat) (s : PoolState)
    (hc : c ∈ s.inUseClients) :
    (release_client c s).availableClients = c :: s.availableClients ∧
    (release_client c s).inUseClients = s.inUseClients.erase c := by
  simp [release_client, hc]

/-- C10 amended, witness: the dead in-use id 0 is moved to the idle
list. -/
theorem release_client_ignores_liveness_witness :
    (release_client 0 poolOne).availableClients = 0 :: poolOne.availableClients ∧
    (release_client 0 poolOne).inUseClients = poolOne.inUseClients.erase 0 :=
  release_client_ignores_liveness 0 poolOne (by decide)

end VoiceAgent
